import Mathlib

/-!
Verification of the redd terminal editor core: the frame-buffer model with
its diff algorithm (`src/vie_core/src/ui.rs`), the double-buffered draw
cycle (`src/vie_core/src/viewport.rs`), and the modal input command engine
with its command-line grammar (`src/vie_core/src/command.rs`,
`src/src/ops/buffer/normal.rs`, `src/src/ops/command_line/mod.rs`).

Rust machine integers (`usize`, `u8`) are modelled as `Nat`; the only
arithmetic the embedded code performs is index arithmetic that the source
guards against underflow (`saturating_sub`, bounds checks), so no modular
reduction is needed.  A Rust panic (an `unwrap` of an `Err`, or a
slice-index out of range) is modelled as the error branch of `Except`.
Text that the source decomposes into grapheme clusters via
`unicode_segmentation` enters the model already decomposed, as a
`List String` of grapheme symbols.
-/

/-- A position in ui space (`Position` in `src/vie_core/src/ui.rs`). -/
structure Position where
  col : Nat
  row : Nat
deriving DecidableEq, Repr

/-- Source: `Position::default()` is `(0, 0)`. -/
def Position.origin : Position := ⟨0, 0⟩

/-- Source: `Position::new(col, row)`. -/
def Position.new (col row : Nat) : Position := ⟨col, row⟩

/-- An area/container in the ui (`Rect` in `src/vie_core/src/ui.rs`). -/
structure Rect where
  width : Nat
  height : Nat
  position : Position
deriving DecidableEq, Repr

/-- Source: `Rect::new(width, height)` with default `Position` `(0, 0)`. -/
def Rect.new (width height : Nat) : Rect := ⟨width, height, Position.origin⟩

/-- Source: `Rect::positioned(width, height, col, row)`. -/
def Rect.positioned (width height col row : Nat) : Rect :=
  ⟨width, height, Position.new col row⟩

/-- Source: `Rect::area`: `width.saturating_mul(height)`; on `Nat` plain multiplication. -/
def Rect.area (r : Rect) : Nat := r.width * r.height

/-- Source: `Rect::left`. -/
def Rect.left (r : Rect) : Nat := r.position.col

/-- Source: `Rect::right`. -/
def Rect.right (r : Rect) : Nat := r.position.col + r.width

/-- Source: `Rect::top`. -/
def Rect.top (r : Rect) : Nat := r.position.row

/-- Source: `Rect::bottom`. -/
def Rect.bottom (r : Rect) : Nat := r.position.row + r.height

/-- Source: `Rect::contains(position)`. -/
def Rect.contains (r : Rect) (p : Position) : Bool :=
  decide (p.col ≥ r.left) && decide (p.col < r.right) &&
    decide (p.row ≥ r.top) && decide (p.row < r.bottom)

/-- Colors supported by the editor (`Color` in `src/vie_core/src/ui.rs`);
`u8` components are modelled as `Nat`. -/
inductive Color where
  | Reset
  | Black
  | Red
  | Green
  | Yellow
  | Blue
  | Magenta
  | Cyan
  | Gray
  | DarkGray
  | LightRed
  | LightGreen
  | LightYellow
  | LightBlue
  | LightMagenta
  | LightCyan
  | White
  | Rgb (r g b : Nat)
  | AnsiValue (v : Nat)
deriving DecidableEq, Repr

/-- Foreground and background color of a cell (`Style` in `src/vie_core/src/ui.rs`). -/
structure Style where
  foreground : Color
  background : Color
deriving DecidableEq, Repr

/-- Source: `Style::default()`: both colors `Reset`. -/
def Style.default : Style := ⟨Color.Reset, Color.Reset⟩

/-- A single cell within the frame (`frame::Cell` in `src/vie_core/src/ui.rs`):
position, symbol (one grapheme cluster, kept as text) and style. -/
structure Cell where
  position : Position
  symbol : String
  style : Style
deriving DecidableEq, Repr

/-- Source: `Cell::new(col, row, symbol, style)`. -/
def Cell.new (col row : Nat) (symbol : String) (style : Style) : Cell :=
  ⟨Position.new col row, symbol, style⟩

/-- Source: `Cell::reset`: the symbol becomes a single space; position and style are
left untouched (the source resets only `self.symbol`). -/
def Cell.reset (c : Cell) : Cell := { c with symbol := " " }

/-- The panic causes `Buffer` methods can hit: an `unwrap` of
`Err(OutOfBoundsError)` in `write_line`, or a slice index past the end of
`cells` (Rust would abort; we surface the abort as an `Except` error). -/
inductive PanicKind where
  | outOfBounds
  | indexOutOfRange
deriving DecidableEq, Repr

/-- A mapping of Cells for a given area (`frame::Buffer` in
`src/vie_core/src/ui.rs`). -/
structure Buffer where
  area : Rect
  cells : List Cell
deriving DecidableEq, Repr

/-- The data-model invariant: the cell list covers the area
(`length == area.width*height`). -/
def Buffer.wf (b : Buffer) : Prop := b.cells.length = b.area.area

/-- Source: `Buffer::filled(area, symbol)`: one cell per grid slot, row-major,
positions `(col, row)` counted from zero exactly as the source's nested
`for` loops produce them. -/
def Buffer.filled (area : Rect) (symbol : String) : Buffer :=
  ⟨area,
    (List.range area.height).flatMap fun row =>
      (List.range area.width).map fun col =>
        Cell.new col row symbol Style.default⟩

/-- Source: `Buffer::empty(area)` is `filled(area, " ")`. -/
def Buffer.empty (area : Rect) : Buffer := Buffer.filled area " "

/-- Source: `Buffer::diff(self, other)`: walk `other.cells` (the back buffer) zipped
with `self.cells` (the front buffer) and collect the back cell of every
index at which the two differ (the source pushes `&back_buffer[i]`, which is
the first component of the `i`-th zip pair). -/
def Buffer.diff (self other : Buffer) : List Cell :=
  ((other.cells.zip self.cells).filter fun p => decide (p.1 ≠ p.2)).map Prod.fst

/-- Source: `Buffer::index_of(position)`: the linear index when the position lies in
the area, `OutOfBoundsError` otherwise. -/
def Buffer.indexOf (b : Buffer) (position : Position) : Except PanicKind Nat :=
  if b.area.contains position then
    Except.ok ((position.row - b.area.position.row) * b.area.width
      + (position.col - b.area.position.col))
  else
    Except.error PanicKind.outOfBounds

/-- Source: `Buffer::reset`: `Cell::reset` applied to every cell. -/
def Buffer.reset (b : Buffer) : Buffer :=
  { b with cells := b.cells.map Cell.reset }

/-- One step of `write_line`'s first loop:
`self.cells[cell_idx] = Cell::new(old.col, old.row, grapheme, style)`;
indexing past the end of `cells` is the Rust panic. -/
def setCellAt (cells : List Cell) (idx : Nat) (g : String) (style : Style) :
    Except PanicKind (List Cell) :=
  match cells.get? idx with
  | some old => Except.ok (cells.set idx ⟨old.position, g, style⟩)
  | none => Except.error PanicKind.indexOutOfRange

/-- Source: `write_line`'s first loop: write grapheme `i` into `cells[index + i]`. -/
def writeGraphemes (cells : List Cell) (idx : Nat) (gs : List String)
    (style : Style) : Except PanicKind (List Cell) :=
  match gs with
  | [] => Except.ok cells
  | g :: rest => do
    let cells' ← setCellAt cells idx g style
    writeGraphemes cells' (idx + 1) rest style

/-- One step of `write_line`'s second loop: `self.cells[i].reset()`. -/
def resetCellAt (cells : List Cell) (idx : Nat) : Except PanicKind (List Cell) :=
  match cells.get? idx with
  | some old => Except.ok (cells.set idx old.reset)
  | none => Except.error PanicKind.indexOutOfRange

/-- Source: `write_line`'s second loop: reset `cells[i]` for
`i in start..start+count`. -/
def clearCells (cells : List Cell) (start count : Nat) :
    Except PanicKind (List Cell) :=
  match count with
  | 0 => Except.ok cells
  | n + 1 => do
    let cells' ← resetCellAt cells start
    clearCells cells' (start + 1) n

/-- Source: `Buffer::write_line(line_number, string, style)` with `string` already
decomposed into its grapheme clusters.  The source unwraps `index_of`
(panicking on an out-of-bounds row), writes every grapheme starting at the
row's first index with no truncation, then resets the cells in
`index + count .. index + area.width`. -/
def Buffer.writeLine (b : Buffer) (lineNumber : Nat) (graphemes : List String)
    (style : Style) : Except PanicKind Buffer := do
  let index ← b.indexOf (Position.new 0 lineNumber)
  let cells1 ← writeGraphemes b.cells index graphemes style
  let cells2 ← clearCells cells1 (index + graphemes.length)
    ((index + b.area.width) - (index + graphemes.length))
  pure { b with cells := cells2 }

/-! ## The diff algorithm (claims C1, C10) -/

/-- The zip-filter-map loop of `Buffer::diff` expressed over linear indices:
it visits exactly the indices below the length of the shorter list, in
ascending order, and reports the back-buffer cell wherever the two sides
differ.  The default cell `dc` never shows through because every index
visited is in range for both lists. -/
theorem diff_zip_range (dc : Cell) (bs : List Cell) : ∀ fs : List Cell,
    ((bs.zip fs).filter fun p => decide (p.1 ≠ p.2)).map Prod.fst
      = ((List.range (min bs.length fs.length)).filter fun i =>
          decide (bs.getD i dc ≠ fs.getD i dc)).map fun i => bs.getD i dc := by
  induction bs with
  | nil => intro fs; simp
  | cons b bs ih =>
    intro fs
    cases fs with
    | nil => simp
    | cons f fs =>
      simp only [ne_eq, decide_not] at ih
      simp only [List.zip_cons_cons, List.length_cons, Nat.succ_min_succ,
        List.range_succ_eq_map, List.filter_cons, List.filter_map,
        List.map_map, Function.comp_def, List.getD_cons_zero, List.getD_cons_succ,
        ne_eq, decide_not]
      by_cases h : b = f
      · subst h
        simp [ih]
      · simp [h, ih]

/-- C10: `Buffer::diff` is total even on buffers of different areas: the
`zip` iterates only up to the length of the shorter cell list, so the result
is exactly the ascending-index filter over `range (min len len)` and no
index beyond the shorter buffer's length is ever consulted — witnessed by
the result being the same for every choice of the default cell `dc`. -/
theorem diff_total_on_mismatched_areas (b1 b2 : Buffer) (dc : Cell) :
    Buffer.diff b1 b2
      = ((List.range (min b2.cells.length b1.cells.length)).filter fun i =>
          decide (b2.cells.getD i dc ≠ b1.cells.getD i dc)).map
          fun i => b2.cells.getD i dc := by
  unfold Buffer.diff
  exact diff_zip_range dc b2.cells b1.cells

/-- C1: for two well-formed buffers of the same area, `prev.diff(next)`
contains exactly the cells of `next` at linear indices `i` with
`prev.cells[i] != next.cells[i]`, in ascending index order (the row-major
order of the cell list), and no other cells. -/
theorem diff_exact_changed_cells (prev next : Buffer) (dc : Cell)
    (harea : prev.area = next.area) (hp : prev.wf) (hn : next.wf) :
    Buffer.diff prev next
      = ((List.range next.cells.length).filter fun i =>
          decide (next.cells.getD i dc ≠ prev.cells.getD i dc)).map
          fun i => next.cells.getD i dc := by
  have hlen : next.cells.length = prev.cells.length := by
    unfold Buffer.wf at hp hn
    rw [hn, hp, harea]
  unfold Buffer.diff
  rw [diff_zip_range dc, hlen, Nat.min_self, ← hlen]

/-- Witness for C1 at a concrete pair of 2×1 buffers. -/
theorem diff_exact_changed_cells_witness :
    (Buffer.empty (Rect.new 2 1)).area = (Buffer.filled (Rect.new 2 1) "x").area ∧
    (Buffer.empty (Rect.new 2 1)).wf ∧ (Buffer.filled (Rect.new 2 1) "x").wf ∧
    Buffer.diff (Buffer.empty (Rect.new 2 1)) (Buffer.filled (Rect.new 2 1) "x")
      = ((List.range (Buffer.filled (Rect.new 2 1) "x").cells.length).filter fun i =>
          decide ((Buffer.filled (Rect.new 2 1) "x").cells.getD i (Cell.new 0 0 " " Style.default)
            ≠ (Buffer.empty (Rect.new 2 1)).cells.getD i (Cell.new 0 0 " " Style.default))).map
          fun i => (Buffer.filled (Rect.new 2 1) "x").cells.getD i (Cell.new 0 0 " " Style.default) :=
  ⟨rfl, rfl, rfl,
    diff_exact_changed_cells (Buffer.empty (Rect.new 2 1)) (Buffer.filled (Rect.new 2 1) "x")
      (Cell.new 0 0 " " Style.default) rfl rfl rfl⟩

/-! ## reset and diff against an empty buffer (claim C9) -/

/-- Every cell produced by `Buffer::filled` carries the given symbol and the
default style. -/
theorem filled_cells_symbol_style (area : Rect) (s : String) :
    ∀ c ∈ (Buffer.filled area s).cells, c.symbol = s ∧ c.style = Style.default := by
  intro c hc
  simp only [Buffer.filled, List.mem_flatMap, List.mem_map] at hc
  obtain ⟨row, _, col, _, rfl⟩ := hc
  exact ⟨rfl, rfl⟩

/-- If two cell lists agree position-by-position and every cell on both
sides is a blank with the default style, the diff loop collects nothing. -/
theorem zip_blank_filter_nil :
    ∀ bs fs : List Cell,
      bs.map Cell.position = fs.map Cell.position →
      (∀ c ∈ bs, c.symbol = " " ∧ c.style = Style.default) →
      (∀ c ∈ fs, c.symbol = " " ∧ c.style = Style.default) →
      ((bs.zip fs).filter fun p => decide (p.1 ≠ p.2)).map Prod.fst = [] := by
  intro bs
  induction bs with
  | nil =>
    intro fs _ _ _
    simp
  | cons b bs ih =>
    intro fs hpos hb hf
    cases fs with
    | nil => simp at hpos
    | cons f fs =>
      simp only [List.map_cons, List.cons.injEq] at hpos
      have hbf : b = f := by
        rcases hb b (by simp) with ⟨hs1, hst1⟩
        rcases hf f (by simp) with ⟨hs2, hst2⟩
        have hp := hpos.1
        cases b
        cases f
        simp_all
      have htail := ih fs hpos.2
        (fun c hc => hb c (List.mem_cons_of_mem _ hc))
        (fun c hc => hf c (List.mem_cons_of_mem _ hc))
      have hstep : (((b, f) :: bs.zip fs).filter fun p => decide (p.1 ≠ p.2))
          = (bs.zip fs).filter fun p => decide (p.1 ≠ p.2) := by
        simp [List.filter_cons, hbf]
      rw [List.zip_cons_cons, hstep, htail]

/-- C9 (amended): after `b.reset()`, every cell that
`Buffer::empty(b.area).diff(b)` still reports is a blank (its symbol is a
space, so only its style can differ from the empty buffer — `Cell::reset`
deliberately keeps the style); and when all of `b`'s cells carry the default
style and the positions line up with the empty buffer's, the diff is empty. -/
theorem reset_diff_empty_contentwise (b : Buffer) :
    (∀ c ∈ Buffer.diff (Buffer.empty b.area) (Buffer.reset b), c.symbol = " ") ∧
    (b.cells.map Cell.position = (Buffer.empty b.area).cells.map Cell.position →
      (∀ c ∈ b.cells, c.style = Style.default) →
      Buffer.diff (Buffer.empty b.area) (Buffer.reset b) = []) := by
  constructor
  · intro c hc
    simp only [Buffer.diff, List.mem_map, List.mem_filter] at hc
    obtain ⟨p, ⟨hzip, _⟩, rfl⟩ := hc
    have hmem := List.of_mem_zip hzip
    have h1 := hmem.1
    simp only [Buffer.reset, List.mem_map] at h1
    obtain ⟨c0, _, heq⟩ := h1
    rw [← heq]
    rfl
  · intro hpos hstyle
    unfold Buffer.diff
    apply zip_blank_filter_nil
    · calc (Buffer.reset b).cells.map Cell.position
          = b.cells.map Cell.position := by
            change (b.cells.map Cell.reset).map Cell.position = b.cells.map Cell.position
            rw [List.map_map]
            rfl
        _ = (Buffer.empty b.area).cells.map Cell.position := hpos
    · intro c hc
      simp only [Buffer.reset, List.mem_map] at hc
      obtain ⟨c0, hc0, rfl⟩ := hc
      exact ⟨rfl, hstyle c0 hc0⟩
    · exact filled_cells_symbol_style b.area " "

/-- Witness for C9 (amended) at a concrete 1×1 buffer of default style. -/
theorem reset_diff_empty_contentwise_witness :
    ((Buffer.filled (Rect.new 1 1) "a").cells.map Cell.position
        = (Buffer.empty (Buffer.filled (Rect.new 1 1) "a").area).cells.map Cell.position) ∧
    (∀ c ∈ (Buffer.filled (Rect.new 1 1) "a").cells, c.style = Style.default) ∧
    Buffer.diff (Buffer.empty (Buffer.filled (Rect.new 1 1) "a").area)
      (Buffer.reset (Buffer.filled (Rect.new 1 1) "a")) = [] :=
  ⟨rfl, by decide,
    (reset_diff_empty_contentwise (Buffer.filled (Rect.new 1 1) "a")).2 rfl (by decide)⟩

/-- C9 (counterexample to the claim as stated): a buffer written with a red
style, then reset, still diffs non-empty against the empty buffer, because
`Cell::reset` keeps the style. -/
theorem reset_diff_empty_styled_counterexample :
    Buffer.writeLine (Buffer.empty (Rect.new 1 1)) 0 ["a"] ⟨Color.Red, Color.Reset⟩
        = Except.ok ⟨Rect.new 1 1, [⟨⟨0, 0⟩, "a", ⟨Color.Red, Color.Reset⟩⟩]⟩ ∧
    Buffer.diff
        (Buffer.empty (Buffer.mk (Rect.new 1 1) [⟨⟨0, 0⟩, "a", ⟨Color.Red, Color.Reset⟩⟩]).area)
        (Buffer.reset (Buffer.mk (Rect.new 1 1) [⟨⟨0, 0⟩, "a", ⟨Color.Red, Color.Reset⟩⟩]))
      ≠ [] :=
  ⟨rfl, by decide⟩

/-! ## write_line (claims C6, C7, C8) -/

/-- The grapheme-writing loop never touches indices at or beyond
`idx + gs.length`. -/
theorem writeGraphemes_get_ge :
    ∀ (gs : List String) (cells : List Cell) (idx : Nat) (style : Style)
      (cells' : List Cell),
      writeGraphemes cells idx gs style = Except.ok cells' →
      ∀ i, idx + gs.length ≤ i → cells'.get? i = cells.get? i := by
  intro gs
  induction gs with
  | nil =>
    intro cells idx style cells' h i _
    simp only [writeGraphemes] at h
    cases h
    rfl
  | cons g rest ih =>
    intro cells idx style cells' h i hi
    simp only [List.length_cons] at hi
    simp only [writeGraphemes, setCellAt] at h
    cases hg : cells.get? idx with
    | none => rw [hg] at h; cases h
    | some old =>
      rw [hg] at h
      simp only [Except.bind] at h
      have := ih (cells.set idx ⟨old.position, g, style⟩) (idx + 1) style cells' h i
        (by omega)
      rw [this]
      simp only [List.get?_eq_getElem?]
      have hne : idx ≠ i := by omega
      exact List.getElem?_set_ne hne

/-- The clearing loop leaves indices below `start` untouched. -/
theorem clearCells_get_lt :
    ∀ (n : Nat) (cells : List Cell) (start : Nat) (cells' : List Cell),
      clearCells cells start n = Except.ok cells' →
      ∀ i, i < start → cells'.get? i = cells.get? i := by
  intro n
  induction n with
  | zero =>
    intro cells start cells' h i _
    simp only [clearCells] at h
    cases h
    rfl
  | succ m ih =>
    intro cells start cells' h i hi
    simp only [clearCells, resetCellAt] at h
    cases hg : cells.get? start with
    | none => rw [hg] at h; cases h
    | some old =>
      rw [hg] at h
      simp only [Except.bind] at h
      have := ih (cells.set start old.reset) (start + 1) cells' h i (by omega)
      rw [this]
      simp only [List.get?_eq_getElem?]
      have hne : start ≠ i := by omega
      exact List.getElem?_set_ne hne

/-- Inside its range the clearing loop replaces each cell by its `reset`:
same position, same style, blank symbol. -/
theorem clearCells_get_in_range :
    ∀ (n : Nat) (cells : List Cell) (start : Nat) (cells' : List Cell),
      clearCells cells start n = Except.ok cells' →
      ∀ i, start ≤ i → i < start + n →
      ∃ c, cells.get? i = some c ∧ cells'.get? i = some c.reset := by
  intro n
  induction n with
  | zero =>
    intro cells start cells' _ i h1 h2
    omega
  | succ m ih =>
    intro cells start cells' h i h1 h2
    simp only [clearCells, resetCellAt] at h
    cases hg : cells.get? start with
    | none => rw [hg] at h; cases h
    | some old =>
      rw [hg] at h
      simp only [Except.bind] at h
      by_cases his : i = start
      · subst his
        refine ⟨old, hg, ?_⟩
        rw [clearCells_get_lt m _ (i + 1) cells' h i (by omega)]
        have hlt : i < cells.length := by
          by_contra hge
          rw [List.get?_eq_getElem?, List.getElem?_eq_none (by omega)] at hg
          cases hg
        simp only [List.get?_eq_getElem?]
        rw [List.getElem?_set_self]
        simp [hlt]
      · obtain ⟨c, hc1, hc2⟩ :=
          ih (cells.set start old.reset) (start + 1) cells' h i (by omega) (by omega)
        refine ⟨c, ?_, hc2⟩
        rw [← hc1]
        simp only [List.get?_eq_getElem?]
        have hne : start ≠ i := by omega
        exact (List.getElem?_set_ne hne).symm

/-- C6 (amended): when `write_line` succeeds, every cell of the written row
beyond the text's graphemes is reset to a blank space, keeping its position
and its previous style (`Cell::reset` does not touch the style, so the style
is not dropped back to default). -/
theorem writeLine_blanks_remainder (b : Buffer) (line : Nat) (gs : List String)
    (style : Style) (b' : Buffer) (index : Nat)
    (hidx : b.indexOf (Position.new 0 line) = Except.ok index)
    (hok : b.writeLine line gs style = Except.ok b')
    (i : Nat) (h1 : index + gs.length ≤ i) (h2 : i < index + b.area.width) :
    ∃ c, b.cells.get? i = some c ∧ b'.cells.get? i = some ⟨c.position, " ", c.style⟩ := by
  simp only [Buffer.writeLine, hidx, Except.bind, bind, pure] at hok
  cases hwg : writeGraphemes b.cells index gs style with
  | error e =>
    simp only [hwg] at hok
    cases hok
  | ok cells1 =>
    simp only [hwg] at hok
    cases hcl : clearCells cells1 (index + gs.length)
        ((index + b.area.width) - (index + gs.length)) with
    | error e =>
      simp only [hcl] at hok
      cases hok
    | ok cells2 =>
      simp only [hcl, Except.pure, Except.ok.injEq] at hok
      subst hok
      obtain ⟨c, hc1, hc2⟩ := clearCells_get_in_range _ _ _ _ hcl i h1 (by omega)
      refine ⟨c, ?_, hc2⟩
      rw [← hc1]
      exact (writeGraphemes_get_ge gs b.cells index style cells1 hwg i h1).symm

/-- Witness for C6 (amended): writing a single grapheme into a 2×1 buffer
blanks the second cell of the row. -/
theorem writeLine_blanks_remainder_witness :
    (Buffer.empty (Rect.new 2 1)).indexOf (Position.new 0 0) = Except.ok 0 ∧
    (Buffer.empty (Rect.new 2 1)).writeLine 0 ["z"] Style.default
      = Except.ok ⟨Rect.new 2 1,
          [⟨⟨0, 0⟩, "z", Style.default⟩, ⟨⟨1, 0⟩, " ", Style.default⟩]⟩ ∧
    0 + ["z"].length ≤ 1 ∧ 1 < 0 + (Buffer.empty (Rect.new 2 1)).area.width ∧
    ∃ c, (Buffer.empty (Rect.new 2 1)).cells.get? 1 = some c ∧
      (Buffer.mk (Rect.new 2 1)
          [⟨⟨0, 0⟩, "z", Style.default⟩, ⟨⟨1, 0⟩, " ", Style.default⟩]).cells.get? 1
        = some ⟨c.position, " ", c.style⟩ :=
  ⟨rfl, rfl, by decide, by decide,
    writeLine_blanks_remainder (Buffer.empty (Rect.new 2 1)) 0 ["z"] Style.default
      (Buffer.mk (Rect.new 2 1)
        [⟨⟨0, 0⟩, "z", Style.default⟩, ⟨⟨1, 0⟩, " ", Style.default⟩]) 0
      rfl rfl 1 (by decide) (by decide)⟩

/-- C6 (counterexample to the claim as stated): after a row was written with
a red style, rewriting it with a shorter default-styled text leaves the
trailing blank cell with the red style, not the default style. -/
theorem writeLine_remainder_keeps_style_counterexample :
    Buffer.writeLine (Buffer.empty (Rect.new 2 1)) 0 ["x", "y"] ⟨Color.Red, Color.Reset⟩
      = Except.ok ⟨Rect.new 2 1,
          [⟨⟨0, 0⟩, "x", ⟨Color.Red, Color.Reset⟩⟩, ⟨⟨1, 0⟩, "y", ⟨Color.Red, Color.Reset⟩⟩]⟩ ∧
    Buffer.writeLine
        (Buffer.mk (Rect.new 2 1)
          [⟨⟨0, 0⟩, "x", ⟨Color.Red, Color.Reset⟩⟩, ⟨⟨1, 0⟩, "y", ⟨Color.Red, Color.Reset⟩⟩])
        0 ["z"] Style.default
      = Except.ok ⟨Rect.new 2 1,
          [⟨⟨0, 0⟩, "z", Style.default⟩, ⟨⟨1, 0⟩, " ", ⟨Color.Red, Color.Reset⟩⟩]⟩ ∧
    (⟨Color.Red, Color.Reset⟩ : Style) ≠ Style.default :=
  ⟨rfl, rfl, by decide⟩

/-- C7: `write_line` does not truncate.  On a 2×2 buffer, writing three
graphemes into row 0 spills the third into row 1's first cell, and on a 2×1
buffer the same call runs past the end of the cell vector (a Rust panic,
surfaced as `indexOutOfRange`). -/
theorem writeLine_overflow_spills_past_row :
    Buffer.writeLine (Buffer.empty (Rect.new 2 2)) 0 ["a", "b", "c"] Style.default
      = Except.ok ⟨Rect.new 2 2,
          [⟨⟨0, 0⟩, "a", Style.default⟩, ⟨⟨1, 0⟩, "b", Style.default⟩,
           ⟨⟨0, 1⟩, "c", Style.default⟩, ⟨⟨1, 1⟩, " ", Style.default⟩]⟩ ∧
    Buffer.writeLine (Buffer.empty (Rect.new 2 1)) 0 ["a", "b", "c"] Style.default
      = Except.error PanicKind.indexOutOfRange :=
  ⟨rfl, rfl⟩

/-- C8 (amended): for a buffer whose area sits at the origin — as every
buffer the program builds does, since the Canvas reports its size as
`Rect::new` — a `write_line` whose row is outside `[0, height)` fails
immediately with `OutOfBoundsError` (the source panics on the `unwrap`),
before any cell is touched; it is never clamped or ignored. -/
theorem writeLine_oob_row_errors (b : Buffer) (line : Nat) (gs : List String)
    (style : Style) (hpos : b.area.position = Position.origin)
    (hline : ¬ line < b.area.height) :
    b.writeLine line gs style = Except.error PanicKind.outOfBounds := by
  have hcontains : b.area.contains (Position.new 0 line) = false := by
    simp only [Rect.contains, Rect.bottom, hpos, Position.origin, Position.new]
    simp [hline]
  simp [Buffer.writeLine, Buffer.indexOf, hcontains, Except.bind, bind]

/-- Witness for C8 (amended): row 5 of a 2×2 buffer. -/
theorem writeLine_oob_row_errors_witness :
    (Buffer.empty (Rect.new 2 2)).area.position = Position.origin ∧
    ¬ (5 : Nat) < (Buffer.empty (Rect.new 2 2)).area.height ∧
    (Buffer.empty (Rect.new 2 2)).writeLine 5 ["z"] Style.default
      = Except.error PanicKind.outOfBounds :=
  ⟨rfl, by decide,
    writeLine_oob_row_errors (Buffer.empty (Rect.new 2 2)) 5 ["z"] Style.default
      rfl (by decide)⟩

/-- C8 (counterexample to the claim as stated): for an area positioned at
row 5, `write_line` accepts row 5 — a `line_number` outside `[0, height)` =
`[0, 1)` — because `index_of` checks `contains` against the positioned
rect, so no `OutOfBoundsError` is raised there. -/
theorem writeLine_positioned_row_counterexample :
    Buffer.writeLine (Buffer.filled (Rect.positioned 1 1 0 5) " ") 5 ["z"] Style.default
      = Except.ok ⟨Rect.positioned 1 1 0 5, [⟨⟨0, 0⟩, "z", Style.default⟩]⟩ ∧
    ¬ (5 : Nat) < (Rect.positioned 1 1 0 5).height :=
  ⟨rfl, by decide⟩

/-! ## The mode/command engine (claims C3, C4, C5)

Types from `src/vie_core/src/backend.rs` and `src/vie_core/src/command.rs`,
and a model of the `nom` combinators the two grammars use.  A `nom` parser
over `&str` becomes a function from the input character list to an optional
pair of remaining input and parsed value (the embedded grammars only ever
use the error variant as failure, so `Option` is faithful). -/

/-- Key presses accepted by the editor (`Key` in `src/vie_core/src/backend.rs`). -/
inductive Key where
  | Enter
  | Tab
  | Backspace
  | Esc
  | Left
  | Right
  | Up
  | Down
  | Insert
  | Delete
  | Home
  | End
  | PageUp
  | PageDown
  | Char (ch : Char)
  | Ctrl (ch : Char)
  | Unknown
deriving DecidableEq, Repr

/-- The editor modes (`Mode` in `src/vie_core/src/command.rs`). -/
inductive Mode where
  | Execute
  | Insert
  | Normal
deriving DecidableEq, Repr

/-- The closed set of editing intents (`Command` in `src/vie_core/src/command.rs`). -/
inductive Command where
  | EnterMode (m : Mode)
  | InsertChar (ch : Char)
  | InsertLineBreak
  | DeleteCharForward
  | DeleteCharBackward
  | MoveCursorUp (n : Nat)
  | MoveCursorDown (n : Nat)
  | MoveCursorLeft (n : Nat)
  | MoveCursorRight (n : Nat)
  | MoveCursorLineStart
  | MoveCursorLineEnd
  | MoveCursorPageUp
  | MoveCursorPageDown
  | Save
  | SaveAs (name : String)
  | Quit
deriving DecidableEq, Repr

/-- A `nom` parser over `&str`: remaining input and value on success. -/
def NomParser (α : Type) : Type := List Char → Option (List Char × α)

/-- Source: `nom::character::complete::char(c)`: match exactly `c`, yielding it. -/
def pchar (c : Char) : NomParser Char := fun s =>
  match s with
  | [] => none
  | x :: xs => if x = c then some (xs, c) else none

/-- Source: `nom::character::complete::anychar`. -/
def anychar : NomParser Char := fun s =>
  match s with
  | [] => none
  | x :: xs => some (xs, x)

/-- Source: `nom::character::complete::one_of(list)`. -/
def oneOf (cs : List Char) : NomParser Char := fun s =>
  match s with
  | [] => none
  | x :: xs => if x ∈ cs then some (xs, x) else none

/-- Source: `nom::character::complete::digit0`: the longest (possibly empty) prefix
of ASCII digits. -/
def digit0 : NomParser (List Char) := fun s =>
  some (s.dropWhile Char.isDigit, s.takeWhile Char.isDigit)

/-- Source: `nom::combinator::value(v, p)`. -/
def nomValue {α β : Type} (v : β) (p : NomParser α) : NomParser β := fun s =>
  (p s).map fun r => (r.1, v)

/-- Source: `nom::combinator::map(p, g)`. -/
def nomMap {α β : Type} (p : NomParser α) (g : α → β) : NomParser β := fun s =>
  (p s).map fun r => (r.1, g r.2)

/-- Source: `nom::combinator::all_consuming(p)`: succeed only when `p` leaves no input. -/
def allConsuming {α : Type} (p : NomParser α) : NomParser α := fun s =>
  match p s with
  | some ([], v) => some ([], v)
  | _ => none

/-- Source: `nom::sequence::pair(p, q)`. -/
def nomPair {α β : Type} (p : NomParser α) (q : NomParser β) : NomParser (α × β) := fun s =>
  match p s with
  | none => none
  | some (r1, a) =>
    match q r1 with
    | none => none
    | some (r2, b) => some (r2, (a, b))

/-- Source: `nom::sequence::separated_pair(p, sep, q)`: the separator's value is dropped. -/
def separatedPair {α β γ : Type} (p : NomParser α) (sep : NomParser β) (q : NomParser γ) :
    NomParser (α × γ) := fun s =>
  match p s with
  | none => none
  | some (r1, a) =>
    match sep r1 with
    | none => none
    | some (r2, _) =>
      match q r2 with
      | none => none
      | some (r3, c) => some (r3, (a, c))

/-- Source: `nom::branch::alt((p, q))`: first success wins. -/
def alt2 {α : Type} (p q : NomParser α) : NomParser α := fun s =>
  match p s with
  | some r => some r
  | none => q s

/-- Source: `nom::branch::alt((p, q, r))`. -/
def alt3 {α : Type} (p q r : NomParser α) : NomParser α := alt2 p (alt2 q r)

/-- Source: `nom::combinator::recognize(p)`: return the consumed slice (the parsers
this is applied to only ever consume a prefix of the input). -/
def recognize {α : Type} (p : NomParser α) : NomParser (List Char) := fun s =>
  match p s with
  | none => none
  | some (rest, _) => some (rest, s.take (s.length - rest.length))

/-- The repetition loop behind `nom::multi::many1`, with fuel bounding the
number of iterations; `nom` itself stops (errors) on a zero-length match,
which the `r.length < s.length` guard mirrors, so fuel `s.length` is always
enough for the terminating parsers the grammars use. -/
def manyFuel {α : Type} (p : NomParser α) : Nat → List Char → List Char × List α
  | 0, s => (s, [])
  | n + 1, s =>
    match p s with
    | none => (s, [])
    | some (r, a) =>
      if r.length < s.length then
        let rec' := manyFuel p n r
        (rec'.1, a :: rec'.2)
      else (s, [])

/-- Source: `nom::multi::many1(p)`: `p` at least once, then as often as it succeeds. -/
def many1 {α : Type} (p : NomParser α) : NomParser (List α) := fun s =>
  match p s with
  | none => none
  | some (r, a) =>
    if r.length < s.length then
      let rest := manyFuel p r.length r
      some (rest.1, a :: rest.2)
    else none

/-- Helper: `many1(anychar)` consumes the whole input, character by character. -/
theorem manyFuel_anychar : ∀ s : List Char, manyFuel anychar s.length s = ([], s) := by
  intro s
  induction s with
  | nil => rfl
  | cons c cs ih =>
    simp only [List.length_cons, manyFuel, anychar]
    simp [ih]

/-- Helper: `many1(anychar)` on a non-empty input returns all of it. -/
theorem many1_anychar_cons (c : Char) (cs : List Char) :
    many1 anychar (c :: cs) = some ([], c :: cs) := by
  simp only [many1, anychar, List.length_cons, Nat.lt_succ_self, if_pos]
  simp [manyFuel_anychar]

namespace execute_mode

/-- Source: `execute_mode::quit` (`src/vie_core/src/command.rs`, identical in
`src/src/ops/command_line/mod.rs`). -/
def quit : NomParser Command := nomValue Command.Quit (allConsuming (pchar 'q'))

/-- Source: `execute_mode::save`. -/
def save : NomParser Command := nomValue Command.Save (allConsuming (pchar 'w'))

/-- Source: `execute_mode::save_as`: `'w'`, a space, then one or more characters
collected verbatim into the file name. -/
def save_as : NomParser Command :=
  nomMap (separatedPair (pchar 'w') (pchar ' ') (many1 anychar)) fun p =>
    Command.SaveAs (String.mk p.2)

/-- Source: `execute_mode::command_for_input`: the whole input must be `':'`
followed by one of the three alternatives. -/
def command_for_input (input : List Char) : Option Command :=
  match allConsuming (nomPair (pchar ':') (alt3 quit save save_as)) input with
  | some (_, (_, command)) => some command
  | none => none

end execute_mode

namespace normal_mode

/-- Source: `normal_mode::command_mode`. -/
def command_mode : NomParser Command :=
  nomValue (Command.EnterMode Mode.Execute) (pchar ':')

/-- Source: `normal_mode::insert_mode`. -/
def insert_mode : NomParser Command :=
  nomValue (Command.EnterMode Mode.Insert) (pchar 'i')

/-- Source: `normal_mode::non_zero_digit`. -/
def non_zero_digit : NomParser Char :=
  oneOf ['1', '2', '3', '4', '5', '6', '7', '8', '9']

/-- Source: `normal_mode::multiplier`: a non-zero digit then any digits, recognized
as the consumed slice. -/
def multiplier : NomParser (List Char) := recognize (nomPair non_zero_digit digit0)

/-- Source: `normal_mode::movement_key`. -/
def movement_key : NomParser Char :=
  alt2 (pchar 'h') (alt2 (pchar 'j') (alt2 (pchar 'k') (pchar 'l')))

/-- Source: `m.parse::<usize>()` on the digit slice the grammar guarantees; `Nat`
does not overflow, where the source would panic on a pathological count. -/
def parseNat (cs : List Char) : Nat :=
  cs.foldl (fun n c => n * 10 + (c.toNat - Char.toNat '0')) 0

/-- Source: `normal_mode::single_move_action` (the source's `match` with an
`unreachable!` default, written as an if-chain whose last arm is `'l'`). -/
def single_move_action : NomParser Command :=
  nomMap movement_key fun c =>
    if c = 'h' then Command.MoveCursorLeft 1
    else if c = 'j' then Command.MoveCursorDown 1
    else if c = 'k' then Command.MoveCursorUp 1
    else Command.MoveCursorRight 1

/-- Source: `normal_mode::multi_move_action`. -/
def multi_move_action : NomParser Command :=
  nomMap (nomPair multiplier movement_key) fun p =>
    if p.2 = 'h' then Command.MoveCursorLeft (parseNat p.1)
    else if p.2 = 'j' then Command.MoveCursorDown (parseNat p.1)
    else if p.2 = 'k' then Command.MoveCursorUp (parseNat p.1)
    else Command.MoveCursorRight (parseNat p.1)

/-- Source: `normal_mode::movement_action`: a bare movement key first, then the
multiplier form. -/
def movement_action : NomParser Command := alt2 single_move_action multi_move_action

/-- Source: `normal_mode::command_for_input`. -/
def command_for_input (input : List Char) : Option Command :=
  match allConsuming (alt3 command_mode insert_mode movement_action) input with
  | some (_, command) => some command
  | none => none

end normal_mode

/-- Modelled from the spec: the `row` module (the `Row` editable text buffer
that `ExecuteParser` stores, with `insert`, `delete`, `len` and `contents`)
is not under `src/`.  The spec's data model gives Execute mode a
`row: editable text buffer` with a cursor column, so a `Row` is the list of
its characters, inserting and deleting at a character index, with an empty
row as the `Default`. -/
abbrev Row : Type := List Char

/-- Modelled from the spec: `Row::default()` — an empty text buffer. -/
def Row.default : Row := ([] : List Char)

/-- Modelled from the spec: `Row::insert(at, ch)` — insert `ch` at index `at`. -/
def Row.insert (r : Row) (idx : Nat) (ch : Char) : Row :=
  (List.take idx r) ++ [ch] ++ (List.drop idx r)

/-- Modelled from the spec: `Row::delete(at)` — remove the character at `at`. -/
def Row.delete (r : Row) (idx : Nat) : Row := List.eraseIdx r idx

/-- Modelled from the spec: `Row::len()`. -/
def Row.len (r : Row) : Nat := List.length r

/-- Modelled from the spec: `Row::contents()` — the buffered text. -/
def Row.contents (r : Row) : List Char := r

/-- Source: `ExecuteParser` (`src/vie_core/src/command.rs`): the Execute-mode state,
a command-line row and a cursor position. -/
structure ExecuteParser where
  row : Row
  cursor_position : Position
deriving DecidableEq, Repr

/-- Source: `ExecuteParser::execute_command`: apply an editing command to the
command-line row, possibly yielding a mode transition. -/
def ExecuteParser.execute_command (p : ExecuteParser) (command : Command) :
    Option Command × ExecuteParser :=
  match command with
  | Command.InsertChar ch =>
    (none, { p with
      row := p.row.insert p.cursor_position.col ch,
      cursor_position := { p.cursor_position with col := p.cursor_position.col + 1 } })
  | Command.MoveCursorLeft n =>
    if p.cursor_position.col > 1 then
      (none, { p with
        cursor_position := { p.cursor_position with col := p.cursor_position.col - n } })
    else (none, p)
  | Command.MoveCursorRight n =>
    if p.cursor_position.col ≠ p.row.len then
      (none, { p with
        cursor_position := { p.cursor_position with col := p.cursor_position.col + n } })
    else (none, p)
  | Command.MoveCursorLineStart =>
    (none, { p with cursor_position := { p.cursor_position with col := 1 } })
  | Command.MoveCursorLineEnd =>
    (none, { p with cursor_position := { p.cursor_position with col := p.row.len } })
  | Command.DeleteCharForward =>
    let p1 := { p with row := p.row.delete p.cursor_position.col }
    if p1.row.len = 1 then (some (Command.EnterMode Mode.Normal), p1) else (none, p1)
  | Command.DeleteCharBackward =>
    let p1 := { p with
      cursor_position := { p.cursor_position with col := p.cursor_position.col - 1 } }
    let p2 := { p1 with row := p1.row.delete p1.cursor_position.col }
    if p2.row.len = 1 then (some (Command.EnterMode Mode.Normal), p2) else (none, p2)
  | _ => (none, p)

/-- Source: `ExecuteParser::parse` (`impl Parser for ExecuteParser`): Enter hands the
row's contents to the grammar; every other key is first mapped to an editing
command and then applied to the row via `execute_command` (so `Esc`'s
`EnterMode(Normal)` is swallowed by `execute_command`'s catch-all). -/
def ExecuteParser.parse (p : ExecuteParser) (key : Key) :
    Option Command × ExecuteParser :=
  match key with
  | Key.Enter => (execute_mode.command_for_input p.row.contents, p)
  | _ =>
    match (match key with
      | Key.Char ch => some (Command.InsertChar ch)
      | Key.Left => some (Command.MoveCursorLeft 1)
      | Key.Right => some (Command.MoveCursorRight 1)
      | Key.Backspace => some Command.DeleteCharBackward
      | Key.Delete => some Command.DeleteCharForward
      | Key.Home => some Command.MoveCursorLineStart
      | Key.End => some Command.MoveCursorLineEnd
      | Key.Esc => some (Command.EnterMode Mode.Normal)
      | _ => none) with
    | some command => p.execute_command command
    | none => (none, p)

/-- Source: `InsertParser::parse` (stateless). -/
def InsertParser.parse (key : Key) : Option Command :=
  match key with
  | Key.Up => some (Command.MoveCursorUp 1)
  | Key.Down => some (Command.MoveCursorDown 1)
  | Key.Left => some (Command.MoveCursorLeft 1)
  | Key.Right => some (Command.MoveCursorRight 1)
  | Key.Home => some Command.MoveCursorLineStart
  | Key.End => some Command.MoveCursorLineEnd
  | Key.PageUp => some Command.MoveCursorPageUp
  | Key.PageDown => some Command.MoveCursorPageDown
  | Key.Delete => some Command.DeleteCharForward
  | Key.Backspace => some Command.DeleteCharBackward
  | Key.Enter => some Command.InsertLineBreak
  | Key.Char ch => some (Command.InsertChar ch)
  | Key.Esc => some (Command.EnterMode Mode.Normal)
  | _ => none

/-- Source: `NormalParser` (`src/vie_core/src/command.rs`): the Normal-mode input
accumulation buffer. -/
structure NormalParser where
  input_buffer : List Char
deriving DecidableEq, Repr

/-- Source: `NormalParser::parse`: push a typed character, clear on Esc, try the
direct single-key table, and otherwise run the accumulated buffer through
the grammar — clearing the buffer afterwards whether or not it matched. -/
def NormalParser.parse (p : NormalParser) (key : Key) :
    Option Command × NormalParser :=
  let buf1 := match key with
    | Key.Char ch => p.input_buffer ++ [ch]
    | _ => p.input_buffer
  let buf2 := match key with
    | Key.Esc => []
    | _ => buf1
  match (match key with
    | Key.Home => some Command.MoveCursorLineStart
    | Key.End => some Command.MoveCursorLineEnd
    | Key.PageUp => some Command.MoveCursorPageUp
    | Key.PageDown => some Command.MoveCursorPageDown
    | Key.Insert => some (Command.EnterMode Mode.Insert)
    | Key.Enter => some (Command.MoveCursorDown 1)
    | _ => none) with
  | some c => (some c, { input_buffer := buf2 })
  | none => (normal_mode.command_for_input buf2, { input_buffer := [] })

/-- Feed a key sequence to `NormalParser`, collecting each call's output. -/
def NormalParser.run (p : NormalParser) (keys : List Key) :
    List (Option Command) × NormalParser :=
  match keys with
  | [] => ([], p)
  | k :: rest =>
    let r := p.parse k
    let rr := r.2.run rest
    (r.1 :: rr.1, rr.2)

/-- Source: `Parsers` (`src/vie_core/src/command.rs`): the engine's tagged state,
one parser per mode. -/
inductive Parsers where
  | Execute (p : ExecuteParser)
  | Insert
  | Normal (p : NormalParser)
deriving DecidableEq, Repr

/-- Source: `impl Parser for Parsers`: dispatch to the active mode's parser, then —
only when the produced command is `EnterMode` — replace the whole state with
the target mode's fresh parser. -/
def Parsers.parse (ps : Parsers) (key : Key) : Option Command × Parsers :=
  let step : Option Command × Parsers :=
    match ps with
    | Parsers.Execute p =>
      let r := p.parse key
      (r.1, Parsers.Execute r.2)
    | Parsers.Insert => (InsertParser.parse key, Parsers.Insert)
    | Parsers.Normal p =>
      let r := p.parse key
      (r.1, Parsers.Normal r.2)
  match step.1 with
  | some (Command.EnterMode m) =>
    (step.1, match m with
      | Mode.Execute => Parsers.Execute ⟨Row.default, Position.origin⟩
      | Mode.Insert => Parsers.Insert
      | Mode.Normal => Parsers.Normal ⟨[]⟩)
  | _ => step

/-- The Execute-mode command grammar as the spec tabulates it, anchored at
both ends: `":q"`, `":w"`, and `":w "` followed by a non-empty filename
taken verbatim (spaces included); everything else is not recognised.
(Spec-side definition, compared against `execute_mode.command_for_input`.) -/
def command_grammar_spec (input : List Char) : Option Command :=
  match input with
  | ':' :: 'q' :: [] => some Command.Quit
  | ':' :: 'w' :: [] => some Command.Save
  | ':' :: 'w' :: ' ' :: c :: cs => some (Command.SaveAs (String.mk (c :: cs)))
  | _ => none

/-- The embedded `nom` grammar agrees with the spec's grammar table on every
input. -/
theorem execute_grammar_eq_spec (input : List Char) :
    execute_mode.command_for_input input = command_grammar_spec input := by
  match input with
  | [] => rfl
  | c0 :: rest =>
    by_cases h0 : c0 = ':'
    case neg =>
      have hl : execute_mode.command_for_input (c0 :: rest) = none := by
        simp [execute_mode.command_for_input, allConsuming, nomPair, pchar, h0]
      have hr : command_grammar_spec (c0 :: rest) = none := by
        unfold command_grammar_spec
        split <;> simp_all
      rw [hl, hr]
    case pos =>
      subst h0
      match rest with
      | [] => rfl
      | c1 :: rest1 =>
        by_cases h1q : c1 = 'q'
        case pos =>
          subst h1q
          match rest1 with
          | [] => rfl
          | c2 :: rest2 => rfl
        case neg =>
          by_cases h1w : c1 = 'w'
          case pos =>
            subst h1w
            match rest1 with
            | [] => rfl
            | c2 :: rest2 =>
              by_cases h2 : c2 = ' '
              case pos =>
                subst h2
                match rest2 with
                | [] => rfl
                | c3 :: rest3 =>
                  simp [execute_mode.command_for_input, execute_mode.quit,
                    execute_mode.save, execute_mode.save_as, allConsuming, nomPair,
                    alt3, alt2, nomValue, nomMap, separatedPair, pchar,
                    many1_anychar_cons, command_grammar_spec]
              case neg =>
                have hl : execute_mode.command_for_input (':' :: 'w' :: c2 :: rest2) = none := by
                  simp [execute_mode.command_for_input, execute_mode.quit,
                    execute_mode.save, execute_mode.save_as, allConsuming, nomPair,
                    alt3, alt2, nomValue, nomMap, separatedPair, pchar, h2]
                have hr : command_grammar_spec (':' :: 'w' :: c2 :: rest2) = none := by
                  unfold command_grammar_spec
                  split <;> simp_all
                rw [hl, hr]
          case neg =>
            have hl : execute_mode.command_for_input (':' :: c1 :: rest1) = none := by
              simp [execute_mode.command_for_input, execute_mode.quit,
                execute_mode.save, execute_mode.save_as, allConsuming, nomPair,
                alt3, alt2, nomValue, nomMap, separatedPair, pchar, h1q, h1w]
            have hr : command_grammar_spec (':' :: c1 :: rest1) = none := by
              unfold command_grammar_spec
              split <;> simp_all
            rw [hl, hr]

/-- C4: the Execute-mode grammar, matched anchored at both ends, maps
exactly `":q"` to `Quit`, `":w"` to `Save`, and `":w "` plus a non-empty
verbatim filename to `SaveAs`; every other string yields no command. -/
theorem execute_grammar_matches_spec_table (input : List Char) :
    execute_mode.command_for_input input = command_grammar_spec input :=
  execute_grammar_eq_spec input

/-- The command-line grammar never produces a mode transition, so the
`Parsers` wrapper never changes state because of it. -/
theorem command_for_input_ne_enterMode (input : List Char) (m : Mode) :
    execute_mode.command_for_input input ≠ some (Command.EnterMode m) := by
  rw [execute_grammar_eq_spec]
  unfold command_grammar_spec
  split <;> simp

/-- C3: fed `Char('1')`, `Char('2')`, `Char('j')` from an empty buffer, the
engine's `NormalParser` emits `MoveCursorDown(1)` on the `'j'` — not
`MoveCursorDown(12)` — because it clears the accumulated buffer after every
lookup, matched or not; the grammar itself does map `"12j"` to
`MoveCursorDown(12)`, and `['j']` alone maps to `MoveCursorDown(1)`. -/
theorem normal_digit_prefix_sequence_behavior :
    (NormalParser.mk []).run [Key.Char '1', Key.Char '2', Key.Char 'j']
      = ([none, none, some (Command.MoveCursorDown 1)], NormalParser.mk []) ∧
    normal_mode.command_for_input ['1', '2', 'j'] = some (Command.MoveCursorDown 12) ∧
    (NormalParser.mk []).run [Key.Char 'j']
      = ([some (Command.MoveCursorDown 1)], NormalParser.mk []) :=
  ⟨rfl, rfl, rfl⟩

/-- C5 (amended): pressing Enter in Execute mode runs the accumulated row
through the command grammar and returns the parsed `Command` on a match and
`None` — no "not recognised" signal, the `Command` type has no such variant
— on no match; in either case the engine keeps its Execute state unchanged
(only `Esc`'s swallowed transition or deleting the row empty leave Execute). -/
theorem execute_enter_parses_and_stays (e : ExecuteParser) :
    Parsers.parse (Parsers.Execute e) Key.Enter
      = (execute_mode.command_for_input e.row.contents, Parsers.Execute e) := by
  cases hc : execute_mode.command_for_input e.row.contents with
  | none => simp [Parsers.parse, ExecuteParser.parse, hc]
  | some c =>
    cases c
    case EnterMode m => exact absurd hc (command_for_input_ne_enterMode _ m)
    all_goals simp [Parsers.parse, ExecuteParser.parse, hc]

/-- C5 (counterexample to the claim as stated): typing `x` then Enter in a
fresh Execute state emits nothing at all on the unrecognised input — no
"not recognised" data — and the engine stays in Execute mode instead of
returning to Normal. -/
theorem execute_enter_unrecognised_counterexample :
    Parsers.parse (Parsers.Execute ⟨[], Position.origin⟩) (Key.Char 'x')
      = (none, Parsers.Execute ⟨['x'], ⟨1, 0⟩⟩) ∧
    Parsers.parse (Parsers.Execute ⟨['x'], ⟨1, 0⟩⟩) Key.Enter
      = (none, Parsers.Execute ⟨['x'], ⟨1, 0⟩⟩) :=
  ⟨rfl, rfl⟩

/-! ## The Viewport draw cycle (claim C2)

`src/vie_core/src/viewport.rs`.  The Canvas collaborator is external and
fallible; its behaviour during one `draw` call is modelled by the optional
error each operation would return, and the render callback by a function
from the live buffer to the mutated buffer, the recorded cursor position,
and the callback's optional error (a failing callback has already mutated
the buffer it was handed, exactly as in the source, where the `?` returns
but the writes stay). -/

/-- The outcome of each Canvas operation during one `draw` call. -/
structure CanvasErrs (E : Type) where
  hideCursor : Option E
  draw : Option E
  positionCursor : Option E
  showCursor : Option E
  flush : Option E

/-- Source: `Viewport`: two persistent frame buffers and the index of the current
one (`buffers: [Buffer; 2]`, `current_buffer_idx`). -/
structure Viewport where
  buffer0 : Buffer
  buffer1 : Buffer
  currentBufferIdx : Fin 2

/-- Source: `self.buffers[self.current_buffer_idx]`. -/
def Viewport.currentBuffer (v : Viewport) : Buffer :=
  if v.currentBufferIdx = 0 then v.buffer0 else v.buffer1

/-- Source: `self.buffers[1 - self.current_buffer_idx]`. -/
def Viewport.previousBuffer (v : Viewport) : Buffer :=
  if 1 - v.currentBufferIdx = 0 then v.buffer0 else v.buffer1

/-- Store the render callback's mutation back into the current buffer. -/
def Viewport.setCurrentBuffer (v : Viewport) (b : Buffer) : Viewport :=
  if v.currentBufferIdx = 0 then { v with buffer0 := b } else { v with buffer1 := b }

/-- Source: `Viewport::swap_buffers`: reset the now-previous buffer, then flip the
index. -/
def Viewport.swapBuffers (v : Viewport) : Viewport :=
  let v1 :=
    if 1 - v.currentBufferIdx = 0 then { v with buffer0 := v.buffer0.reset }
    else { v with buffer1 := v.buffer1.reset }
  { v1 with currentBufferIdx := 1 - v.currentBufferIdx }

/-- Source: `Viewport::draw`: hide cursor, run the render callback on the current
buffer, diff previous against current, send the diff, position and show the
cursor, swap buffers, flush — aborting with the first error and returning
the state as it stands at that point.  Note the source swaps *before*
flushing. -/
def Viewport.draw {E : Type} (v : Viewport) (canvas : CanvasErrs E)
    (f : Buffer → Buffer × Position × Option E) : Viewport × Option E :=
  match canvas.hideCursor with
  | some e => (v, some e)
  | none =>
    let r := f v.currentBuffer
    let v1 := v.setCurrentBuffer r.1
    match r.2.2 with
    | some e => (v1, some e)
    | none =>
      let _changes := v1.previousBuffer.diff v1.currentBuffer
      match canvas.draw with
      | some e => (v1, some e)
      | none =>
        match canvas.positionCursor with
        | some e => (v1, some e)
        | none =>
          match canvas.showCursor with
          | some e => (v1, some e)
          | none =>
            let v2 := v1.swapBuffers
            match canvas.flush with
            | some e => (v2, some e)
            | none => (v2, none)

/-- The first error in canvas-operation order, if any. -/
def firstErr {E : Type} : List (Option E) → Option E
  | [] => none
  | some e :: _ => some e
  | none :: rest => firstErr rest

/-- Writing the callback's buffer back never moves the index. -/
theorem setCurrentBuffer_idx (v : Viewport) (b : Buffer) :
    (v.setCurrentBuffer b).currentBufferIdx = v.currentBufferIdx := by
  unfold Viewport.setCurrentBuffer
  split <;> rfl

/-- Swapping flips the index. -/
theorem swapBuffers_idx (v : Viewport) :
    v.swapBuffers.currentBufferIdx = 1 - v.currentBufferIdx := by
  unfold Viewport.swapBuffers
  split <;> rfl

/-- C2 (amended): `draw` returns the first error among hide-cursor, the
render callback, the diff draw, cursor positioning, cursor showing and
flush; a failure at any of the first five aborts *before* the swap, leaving
`current_buffer_idx` unchanged, but a flush failure happens *after*
`swap_buffers`, so the error comes back with the index already flipped. -/
theorem draw_failure_semantics {E : Type} (v : Viewport) (canvas : CanvasErrs E)
    (f : Buffer → Buffer × Position × Option E) :
    ((v.draw canvas f).1.currentBufferIdx =
      if (canvas.hideCursor.isSome || (f v.currentBuffer).2.2.isSome
          || canvas.draw.isSome || canvas.positionCursor.isSome
          || canvas.showCursor.isSome) = true
      then v.currentBufferIdx else 1 - v.currentBufferIdx) ∧
    (v.draw canvas f).2 = firstErr [canvas.hideCursor, (f v.currentBuffer).2.2,
      canvas.draw, canvas.positionCursor, canvas.showCursor, canvas.flush] := by
  cases hh : canvas.hideCursor with
  | some e => simp [Viewport.draw, hh, firstErr]
  | none =>
    cases hf : (f v.currentBuffer).2.2 with
    | some e =>
      simp [Viewport.draw, hh, hf, firstErr, setCurrentBuffer_idx]
    | none =>
      cases hd : canvas.draw with
      | some e =>
        simp [Viewport.draw, hh, hf, hd, firstErr, setCurrentBuffer_idx]
      | none =>
        cases hp : canvas.positionCursor with
        | some e =>
          simp [Viewport.draw, hh, hf, hd, hp, firstErr, setCurrentBuffer_idx]
        | none =>
          cases hs : canvas.showCursor with
          | some e =>
            simp [Viewport.draw, hh, hf, hd, hp, hs, firstErr, setCurrentBuffer_idx]
          | none =>
            cases hfl : canvas.flush with
            | some e =>
              simp [Viewport.draw, hh, hf, hd, hp, hs, hfl, firstErr,
                swapBuffers_idx, setCurrentBuffer_idx]
            | none =>
              simp [Viewport.draw, hh, hf, hd, hp, hs, hfl, firstErr,
                swapBuffers_idx, setCurrentBuffer_idx]

/-- C2 (counterexample to the claim as stated): with every operation
succeeding except `flush`, `draw` aborts with the flush error, yet the
buffer swap has already occurred — `current_buffer_idx` flipped from 0
to 1. -/
theorem draw_flush_after_swap_counterexample :
    (Viewport.draw
        ⟨Buffer.empty (Rect.new 1 1), Buffer.empty (Rect.new 1 1), 0⟩
        ⟨none, none, none, none, some 7⟩
        (fun b => (b, Position.origin, (none : Option Nat)))).2 = some 7 ∧
    (Viewport.draw
        ⟨Buffer.empty (Rect.new 1 1), Buffer.empty (Rect.new 1 1), 0⟩
        ⟨none, none, none, none, some 7⟩
        (fun b => (b, Position.origin, (none : Option Nat)))).1.currentBufferIdx = 1 :=
  ⟨rfl, rfl⟩
